import Mathlib

/-!
Verification of the resumable, rate-limited batch migration engine.

Shallow embedding of the JavaScript sources:
  * `src/utils/rateLimiter.js`   — `RateLimiter`, `retryWithBackoff`
  * `src/utils/constants.js`     — policy constants and status vocabulary
  * `src/services/oauth.js`      — `ensureFreshToken`
  * `src/database/queries/users.js` — query layer over the Postgres tables
  * `src/services/migration.js`  — `executeMigration`, `processSingleUser`
  * `src/bot/events/messageCreate.js` — the `?pull` command handler

Modelling conventions:
  * timestamps are `Int` milliseconds since the epoch (JS `Date.getTime()`;
    a NULL `token_expires_at` becomes `0`, matching `new Date(null)`);
  * the network is an oracle supplied per principal: the result of the
    OAuth refresh exchange and, per attempt number, the result of the
    guild-join call;
  * `encryption.encrypt` / `encryption.decrypt` are opaque parameters —
    every theorem holds for all of them;
  * throwing JS code is `Except String`, the string being `err.message`;
  * Discord embeds, logger calls and the audit log are pure display and
    are elided; everything that reads or writes the migration tables is
    modelled.
-/

namespace Migration

/-! ## Status vocabulary — src/utils/constants.js -/

/-- `MIGRATION_STATUS` from `src/utils/constants.js`: the strings
`'added' | 'already_in_server' | 'failed' | 'skipped_manual' |
'token_revoked' | 'refresh_failed'` stored in `migration_user_log.status`. -/
inductive MigStatus where
  | added
  | already_in
  | failed
  | skipped_manual
  | token_revoked
  | refresh_failed
deriving DecidableEq, Repr

/-- `TOKEN_REFRESH_BUFFER_SECONDS = 3600` from `src/utils/constants.js`. -/
def tokenRefreshBufferSeconds : Int := 3600

/-! ## RateLimiter — src/utils/rateLimiter.js lines 14-53

The limiter keeps `lastRequestTime` and, for each queued waiter, computes
`waitTime = max(0, minInterval - (now - lastRequestTime))`, sleeps that
long, stamps `lastRequestTime` with the release instant and releases the
waiter.  We model the release instant directly: a waiter that reaches the
head of the queue at time `now` is released at `now + waitTime`. -/

/-- `minInterval = Math.ceil(1000 / requestsPerSecond)` (constructor of
`RateLimiter`).  For a positive integer rate the JS float ceiling equals
the exact ceiling division modelled here. -/
def minIntervalOf (requestsPerSecond : Nat) : Nat :=
  (1000 + requestsPerSecond - 1) / requestsPerSecond

/-- Release instant for a waiter served at time `now` when the previous
release happened at `last`: `now + max(0, minInterval - (now - last))`
(truncated `Nat` subtraction is exactly the JS `Math.max(0, ...)` given
`last ≤ now`). -/
def rlStep (minInterval last now : Nat) : Nat :=
  now + (minInterval - (now - last))

/-- The release instants of a queue of arrivals served in FIFO order,
starting from `lastRequestTime = last` (the constructor sets it to 0). -/
def rlReleases (minInterval last : Nat) : List Nat → List Nat
  | [] => []
  | now :: rest =>
      let r := rlStep minInterval last now
      r :: rlReleases minInterval r rest

/-- Sequential acquisition: each caller invokes `acquire()` only after the
previous call was released, so each arrival is no earlier than the
previous release instant. -/
def seqArrivals (minInterval last : Nat) : List Nat → Bool
  | [] => true
  | now :: rest =>
      Nat.ble last now && seqArrivals minInterval (rlStep minInterval last now) rest

/-! ## retryWithBackoff — src/utils/rateLimiter.js lines 61-100

`for (attempt = 1; attempt <= maxAttempts; attempt++) { try { return await
fn(attempt) } catch (err) { if (attempt === maxAttempts || !retryOn(err))
throw err; await sleep(jitter) } } throw lastError`.  The sleep affects
only timing, not the returned value, and is elided.  `retryFrom fn retryOn
attempt remaining` runs the loop from iteration `attempt` with `remaining`
iterations left (so `remaining = maxAttempts - attempt + 1`); it returns
the result together with the number of invocations of `fn` actually made.
The `remaining = 0` case is the JS `throw lastError` with `lastError`
still `undefined`, reachable only when `maxAttempts < 1`. -/

def retryFrom {α : Type} (fn : Nat → Except String α) (retryOn : String → Bool)
    (attempt : Nat) : Nat → Except String α × Nat
  | 0 => (.error "undefined", 0)
  | remaining + 1 =>
      match fn attempt with
      | .ok a => (.ok a, 1)
      | .error e =>
          if remaining = 0 || !retryOn e then (.error e, 1)
          else
            let (r, n) := retryFrom fn retryOn (attempt + 1) remaining
            (r, n + 1)

/-- `retryWithBackoff(fn, {maxAttempts, retryOn})`: the returned value
(delays elided). -/
def retryWithBackoff {α : Type} (fn : Nat → Except String α)
    (retryOn : String → Bool) (maxAttempts : Nat) : Except String α :=
  (retryFrom fn retryOn 1 maxAttempts).1

/-- Number of invocations of `fn` that `retryWithBackoff` performs. -/
def retryAttemptsMade {α : Type} (fn : Nat → Except String α)
    (retryOn : String → Bool) (maxAttempts : Nat) : Nat :=
  (retryFrom fn retryOn 1 maxAttempts).2

/-! ## Data model — migrations/001_initial.sql and the query layer -/

/-- A row of `verified_users` (001_initial.sql).  `token_expires_at` is in
epoch milliseconds, `0` for SQL NULL (JS `new Date(null)` is the epoch). -/
structure UserRow where
  discord_id : String
  access_token : Option String
  refresh_token : Option String
  token_expires_at : Int
  manually_verified : Bool
  token_revoked : Bool
  verified_at : Nat
deriving DecidableEq, Repr

/-- `migration_runs.status`: `'running' | 'completed' | 'failed'`
(DEFAULT `'running'`). -/
inductive RunStatus where
  | running
  | completed
  | failed
deriving DecidableEq, Repr

/-- A row of `migration_runs`. -/
structure RunRow where
  id : Nat
  target_guild_id : String
  initiated_by : String
  started_at : Int
  completed_at : Option Int
  total_users : Nat
  added_count : Nat
  already_in_count : Nat
  failed_count : Nat
  skipped_manual : Nat
  token_revoked_count : Nat
  status : RunStatus
  error_message : Option String
deriving DecidableEq, Repr

/-- A row of `migration_user_log`. -/
structure LogEntry where
  migration_run_id : Nat
  discord_id : String
  status : MigStatus
  error_message : Option String
deriving DecidableEq, Repr

/-- The durable store: the three migration-relevant tables plus the next
SERIAL value for `migration_runs.id`. -/
structure DbState where
  users : List UserRow
  runs : List RunRow
  itemLog : List LogEntry
  nextRunId : Nat
deriving DecidableEq, Repr

/-! ## Query layer — src/database/queries/users.js -/

/-- `getAllVerifiedUsers` (users.js lines 68-75):
`SELECT * FROM verified_users WHERE token_revoked = FALSE
 ORDER BY verified_at ASC`. -/
def getAllVerifiedUsers (db : DbState) : List UserRow :=
  (db.users.filter (fun u => !u.token_revoked)).insertionSort
    (fun a b => a.verified_at ≤ b.verified_at)

/-- `updateTokens` (users.js lines 93-104): overwrite the stored encrypted
pair and expiry of one user. -/
def updateTokens (users : List UserRow) (discordId : String)
    (accessToken refreshToken : String) (tokenExpiresAt : Int) : List UserRow :=
  users.map fun u =>
    if u.discord_id = discordId then
      { u with access_token := some accessToken,
               refresh_token := some refreshToken,
               token_expires_at := tokenExpiresAt }
    else u

/-- `markTokenRevoked` (users.js lines 109-120): `SET token_revoked = TRUE,
access_token = NULL, refresh_token = NULL`. -/
def markTokenRevoked (users : List UserRow) (discordId : String) : List UserRow :=
  users.map fun u =>
    if u.discord_id = discordId then
      { u with token_revoked := true, access_token := none, refresh_token := none }
    else u

/-- `createMigrationRun` (users.js lines 189-197): INSERT with the column
defaults of 001_initial.sql, RETURNING the new row. -/
def createMigrationRun (db : DbState) (targetGuildId initiatedBy : String)
    (totalUsers : Nat) (now : Int) : RunRow × DbState :=
  let row : RunRow :=
    { id := db.nextRunId
      target_guild_id := targetGuildId
      initiated_by := initiatedBy
      started_at := now
      completed_at := none
      total_users := totalUsers
      added_count := 0
      already_in_count := 0
      failed_count := 0
      skipped_manual := 0
      token_revoked_count := 0
      status := .running
      error_message := none }
  (row, { db with runs := db.runs ++ [row], nextRunId := db.nextRunId + 1 })

/-- In-memory `counts` object of `executeMigration` (migration.js lines
120-127). -/
structure Counts where
  added : Nat
  alreadyIn : Nat
  failed : Nat
  skippedManual : Nat
  tokenRevoked : Nat
  total : Nat
deriving DecidableEq, Repr

/-- `completeMigrationRun` (users.js lines 225-245): set
`status = 'completed'`, `completed_at = NOW()` and persist the five
aggregate counters (`counts.total` has no column and is not persisted). -/
def completeMigrationRun (db : DbState) (runId : Nat) (counts : Counts)
    (now : Int) : DbState :=
  { db with runs := db.runs.map fun r =>
      if r.id = runId then
        { r with status := .completed
                 completed_at := some now
                 added_count := counts.added
                 already_in_count := counts.alreadyIn
                 failed_count := counts.failed
                 skipped_manual := counts.skippedManual
                 token_revoked_count := counts.tokenRevoked }
      else r }

/-- `failMigrationRun` (users.js lines 250-259): set `status = 'failed'`,
`completed_at = NOW()`, store the message.  Exported by the query layer
but — decisive for the error-handling claims — never invoked by any
caller in the repository. -/
def failMigrationRun (db : DbState) (runId : Nat) (errorMessage : String)
    (now : Int) : DbState :=
  { db with runs := db.runs.map fun r =>
      if r.id = runId then
        { r with status := .failed
                 completed_at := some now
                 error_message := some errorMessage }
      else r }

/-- `logMigrationUser` (users.js lines 264-270): append-only INSERT into
`migration_user_log`. -/
def logMigrationUser (db : DbState) (migrationRunId : Nat) (discordId : String)
    (status : MigStatus) (errorMessage : Option String) : DbState :=
  { db with itemLog := db.itemLog ++
      [⟨migrationRunId, discordId, status, errorMessage⟩] }

/-- One `map.set(k, v)` of a JS `Map` being built: replaces the value in
place if the key exists, appends otherwise. -/
def jsMapInsert (m : List (String × MigStatus)) (kv : String × MigStatus) :
    List (String × MigStatus) :=
  if m.any (fun p => p.1 = kv.1) then
    m.map (fun p => if p.1 = kv.1 then kv else p)
  else m ++ [kv]

/-- `new Map(pairs)` — insertion-ordered, later values win per key. -/
def jsMap (pairs : List (String × MigStatus)) : List (String × MigStatus) :=
  pairs.foldl jsMapInsert []

/-- `map.has(k)`. -/
def jsMapHas (m : List (String × MigStatus)) (k : String) : Bool :=
  m.any (fun p => p.1 = k)

/-- `getProcessedUsersForRun` (users.js lines 275-282): the item-log rows
of one run turned into a JS `Map` from `discord_id` to `status`. -/
def getProcessedUsersForRun (db : DbState) (migrationRunId : Nat) :
    List (String × MigStatus) :=
  jsMap ((db.itemLog.filter (fun e => e.migration_run_id = migrationRunId)).map
    (fun e => (e.discord_id, e.status)))

/-- `getIncompleteMigrationRun` (users.js lines 287-296):
`WHERE target_guild_id = $1 AND status = 'running'
 ORDER BY started_at DESC LIMIT 1`. -/
def getIncompleteMigrationRun (db : DbState) (targetGuildId : String) :
    Option RunRow :=
  (db.runs.filter
    (fun r => r.target_guild_id = targetGuildId && r.status = .running)).foldl
    (fun best r =>
      match best with
      | none => some r
      | some b => if b.started_at < r.started_at then some r else some b)
    none

/-! ## Token lifecycle — src/services/oauth.js -/

/-- Substring test used to model `err.message.includes(needle)`. -/
def containsStr (needle hay : String) : Bool :=
  hay.toList.tails.any (fun t => needle.toList.isPrefixOf t)

/-- Persistent effect of one `ensureFreshToken` call on `verified_users`. -/
inductive UserUpdate where
  | noUpdate
  | setTokens (accessToken refreshToken : String) (tokenExpiresAt : Int)
  | setRevoked
deriving DecidableEq, Repr

/-- Apply a `UserUpdate` for one user through the query layer. -/
def applyUserUpdate (users : List UserRow) (discordId : String) :
    UserUpdate → List UserRow
  | .noUpdate => users
  | .setTokens a r exp => updateTokens users discordId a r exp
  | .setRevoked => markTokenRevoked users discordId

/-- Result of one `ensureFreshToken` call: the value returned or thrown,
the number of refresh-exchange network calls made, and the persistent
effect on the user's row. -/
structure EnsureResult where
  token : Except String String
  refreshCalls : Nat
  update : UserUpdate
deriving Repr

/-- `ensureFreshToken(user)` (oauth.js lines 116-155).

`refreshResult` is the network oracle for the one refresh exchange that
may be performed: `.ok (accessToken, refreshToken, expiresIn)` models a
200 response, `.error msg` a thrown error with message `msg`.

The branch structure follows the source: if
`expiresAt.getTime() - now.getTime() > TOKEN_REFRESH_BUFFER_SECONDS * 1000`
the stored access token is decrypted and returned with no network call;
otherwise the refresh runs once, a success persists the re-encrypted pair
and new expiry and returns the plaintext access token, a failure whose
message includes `'invalid_grant'` or `'revoked'` persists revocation and
throws `'TOKEN_REVOKED'`, and any other failure rethrows unchanged. -/
def ensureFreshToken (decrypt encrypt : String → String) (now : Int)
    (refreshResult : Except String (String × String × Int))
    (user : UserRow) : EnsureResult :=
  if user.token_expires_at - now > tokenRefreshBufferSeconds * 1000 then
    { token := .ok (decrypt (user.access_token.getD ""))
      refreshCalls := 0
      update := .noUpdate }
  else
    match refreshResult with
    | .ok (accessToken, refreshToken, expiresIn) =>
        { token := .ok accessToken
          refreshCalls := 1
          update := .setTokens (encrypt accessToken) (encrypt refreshToken)
            (now + expiresIn * 1000) }
    | .error msg =>
        if containsStr "invalid_grant" msg || containsStr "revoked" msg then
          { token := .error "TOKEN_REVOKED"
            refreshCalls := 1
            update := .setRevoked }
        else
          { token := .error msg
            refreshCalls := 1
            update := .noUpdate }

/-! ## Guild join — src/services/oauth.js lines 161-211 -/

/-- Classified response of `addUserToGuild`: 201 → `added`, 204 →
`already_in_server`, 429 → `rate_limited(retryAfter)`, anything else →
`failed` with an error message. -/
inductive JoinApiResult where
  | added
  | already_in_server
  | rate_limited (retryAfter : Nat)
  | failed (message : String)
deriving DecidableEq, Repr

/-- The `{status, error}` object `processSingleUser` logs for a completed
join. -/
structure JoinOutcome where
  status : MigStatus
  error : Option String
deriving DecidableEq, Repr

/-- The operation handed to `retryWithBackoff` in `processSingleUser`
(migration.js lines 320-344): call `addUserToGuild`; a `rate_limited`
response sleeps `(retryAfter + 0.5) * 1000` ms and throws
`'RATE_LIMITED'` to trigger a retry, any other response is returned. -/
def joinOperation (join : Nat → JoinApiResult) (attempt : Nat) :
    Except String JoinOutcome :=
  match join attempt with
  | .added => .ok ⟨.added, none⟩
  | .already_in_server => .ok ⟨.already_in, none⟩
  | .rate_limited _ => .error "RATE_LIMITED"
  | .failed message => .ok ⟨.failed, some message⟩

/-! ## Per-item processing — src/services/migration.js lines 266-366 -/

/-- Network oracle for one principal: the refresh-exchange response if a
refresh is attempted, and the join response per attempt number. -/
structure UserEnv where
  refreshResult : Except String (String × String × Int)
  join : Nat → JoinApiResult

/-- Result of one `processSingleUser` call: the status returned (or the
message of an uncaught exception), the item-log rows appended, and the
effect on `verified_users`. -/
structure ItemResult where
  result : Except String MigStatus
  logs : List LogEntry
  update : UserUpdate
deriving Repr

/-- `processSingleUser(user, targetGuildId, migrationRunId, rateLimiter)`
(migration.js lines 266-366).  Branches in source order:
manually-verified users without a stored token are logged
`skipped_manual`; users whose row says `token_revoked` are logged
`token_revoked` with detail `'Token previously revoked'`; otherwise
`ensureFreshToken` runs — a thrown `'TOKEN_REVOKED'` is logged
`token_revoked`, any other throw is logged `refresh_failed` with the
message; with a token in hand the join runs under
`retryWithBackoff(..., {maxAttempts: config.migration.retryAttempts,
retryOn: err => err.message === 'RATE_LIMITED'})` and the outcome object's
status is logged.  An exhausted retry rethrows `'RATE_LIMITED'` out of the
function, after which nothing is logged for the user. -/
def processSingleUser (decrypt encrypt : String → String)
    (retryAttempts : Nat) (env : UserEnv) (now : Int)
    (migrationRunId : Nat) (user : UserRow) : ItemResult :=
  if user.manually_verified && user.access_token.isNone then
    { result := .ok .skipped_manual
      logs := [⟨migrationRunId, user.discord_id, .skipped_manual,
        some "No OAuth tokens — manually verified only"⟩]
      update := .noUpdate }
  else if user.token_revoked then
    { result := .ok .token_revoked
      logs := [⟨migrationRunId, user.discord_id, .token_revoked,
        some "Token previously revoked"⟩]
      update := .noUpdate }
  else
    match ensureFreshToken decrypt encrypt now env.refreshResult user with
    | ⟨.error e, _, upd⟩ =>
        if e = "TOKEN_REVOKED" then
          { result := .ok .token_revoked
            logs := [⟨migrationRunId, user.discord_id, .token_revoked,
              some "Token revoked during refresh"⟩]
            update := upd }
        else
          { result := .ok .refresh_failed
            logs := [⟨migrationRunId, user.discord_id, .refresh_failed, some e⟩]
            update := upd }
    | ⟨.ok _token, _, upd⟩ =>
        match retryWithBackoff (joinOperation env.join) (fun e => e = "RATE_LIMITED")
            retryAttempts with
        | .error e => { result := .error e, logs := [], update := upd }
        | .ok outcome =>
            { result := .ok outcome.status
              logs := [⟨migrationRunId, user.discord_id, outcome.status, outcome.error⟩]
              update := upd }

/-! ## The engine — src/services/migration.js `executeMigration` -/

/-- The `switch (result)` of the processing loop (migration.js lines
144-163): `TOKEN_REVOKED` and `REFRESH_FAILED` share the `tokenRevoked`
counter; `FAILED` and the `default` arm share `failed`. -/
def loopTally (c : Counts) : MigStatus → Counts
  | .added => { c with added := c.added + 1 }
  | .already_in => { c with alreadyIn := c.alreadyIn + 1 }
  | .skipped_manual => { c with skippedManual := c.skippedManual + 1 }
  | .token_revoked => { c with tokenRevoked := c.tokenRevoked + 1 }
  | .refresh_failed => { c with tokenRevoked := c.tokenRevoked + 1 }
  | .failed => { c with failed := c.failed + 1 }

/-- The resumed-run merge `switch (status)` (migration.js lines 184-193):
identical counter mapping, with the `default` arm again feeding
`failed`. -/
def mergeTally (c : Counts) : MigStatus → Counts
  | .added => { c with added := c.added + 1 }
  | .already_in => { c with alreadyIn := c.alreadyIn + 1 }
  | .skipped_manual => { c with skippedManual := c.skippedManual + 1 }
  | .token_revoked => { c with tokenRevoked := c.tokenRevoked + 1 }
  | .refresh_failed => { c with tokenRevoked := c.tokenRevoked + 1 }
  | .failed => { c with failed := c.failed + 1 }

/-- Mutable state of the processing loop: the store plus the in-memory
`counts` and `failedUsers` accumulator. -/
structure EngineState where
  db : DbState
  counts : Counts
  failedUsers : List String
deriving Repr

/-- Oracle for a whole run: whether the bot is in the target guild
(`client.guilds.cache.get`), the clock, and the per-principal network
oracle keyed by `discord_id`. -/
structure MigEnv where
  targetKnown : Bool
  now : Int
  userEnv : String → UserEnv

/-- One iteration of `for (const user of usersToProcess)` (migration.js
lines 133-177): run `processSingleUser`, apply its row update and log
appends, then either tally the classified status (pushing `failedUsers`
on `FAILED`) or — the `catch (err)` arm — count the user as failed in
memory only and continue.  Progress embeds are display-only and
elided. -/
def runStep (decrypt encrypt : String → String) (retryAttempts : Nat)
    (menv : MigEnv) (migrationRunId : Nat) (st : EngineState)
    (user : UserRow) : EngineState :=
  match processSingleUser decrypt encrypt retryAttempts
      (menv.userEnv user.discord_id) menv.now migrationRunId user with
  | ⟨.ok s, logs, upd⟩ =>
      { db := { st.db with
          users := applyUserUpdate st.db.users user.discord_id upd
          itemLog := st.db.itemLog ++ logs }
        counts := loopTally st.counts s
        failedUsers :=
          if s = .failed then st.failedUsers ++ [user.discord_id]
          else st.failedUsers }
  | ⟨.error _, logs, upd⟩ =>
      { db := { st.db with
          users := applyUserUpdate st.db.users user.discord_id upd
          itemLog := st.db.itemLog ++ logs }
        counts := { st.counts with failed := st.counts.failed + 1 }
        failedUsers := st.failedUsers ++ [user.discord_id] }

/-- The whole processing loop. -/
def runLoop (decrypt encrypt : String → String) (retryAttempts : Nat)
    (menv : MigEnv) (migrationRunId : Nat) (users : List UserRow)
    (st : EngineState) : EngineState :=
  users.foldl (runStep decrypt encrypt retryAttempts menv migrationRunId) st

/-- Steps 5-6 of `executeMigration` (migration.js lines 113-254): process
`usersToProcess` starting from zero counts with
`total = usersToProcess.length`, merge the counts reconstructed from the
resumed run's outcome map, and `completeMigrationRun`.  This part of the
engine contains no `throw`. -/
def migrateUsers (decrypt encrypt : String → String) (retryAttempts : Nat)
    (menv : MigEnv) (runId : Nat)
    (alreadyProcessed : List (String × MigStatus))
    (usersToProcess : List UserRow) (db : DbState) : DbState :=
  let counts0 : Counts :=
    { added := 0, alreadyIn := 0, failed := 0, skippedManual := 0,
      tokenRevoked := 0, total := usersToProcess.length }
  let st := runLoop decrypt encrypt retryAttempts menv runId usersToProcess
    { db := db, counts := counts0, failedUsers := [] }
  let merged := (alreadyProcessed.map Prod.snd).foldl mergeTally st.counts
  completeMigrationRun st.db runId merged menv.now

/-- `executeMigration(client, channel, targetGuildId, initiatedBy)`
(migration.js lines 17-255).  Returns the thrown message or `()` together
with the store as left at that point:

1. validation — throw if the bot is not in the target guild, before any
   store access;
2. resume — `getIncompleteMigrationRun`; when a `running` run exists its
   outcome map becomes `alreadyProcessed`;
3. fetch — `getAllVerifiedUsers`; throw on an empty list;
   `usersToProcess` filters out the keys of `alreadyProcessed` when that
   map is nonempty; a new run is created only when none was resumed;
4-6. `migrateUsers` above.  Audit-log writes and embeds are elided. -/
def executeMigration (decrypt encrypt : String → String) (retryAttempts : Nat)
    (menv : MigEnv) (targetGuildId initiatedBy : String) (db : DbState) :
    Except String Unit × DbState :=
  if !menv.targetKnown then
    (.error "Bot is not in guild. Invite the bot first, then retry.", db)
  else
    let existing := getIncompleteMigrationRun db targetGuildId
    let alreadyProcessed := match existing with
      | some r => getProcessedUsersForRun db r.id
      | none => []
    let allUsers := getAllVerifiedUsers db
    if allUsers.isEmpty then
      (.error "No verified users found in the database.", db)
    else
      let usersToProcess :=
        if alreadyProcessed.length > 0 then
          allUsers.filter (fun u => !jsMapHas alreadyProcessed u.discord_id)
        else allUsers
      let (run, db1) := match existing with
        | some r => (r, db)
        | none => createMigrationRun db targetGuildId initiatedBy
            allUsers.length menv.now
      (.ok (), migrateUsers decrypt encrypt retryAttempts menv run.id
        alreadyProcessed usersToProcess db1)

/-- The `?pull` handler (src/bot/events/messageCreate.js lines 57-67):
`try { await migrationService.executeMigration(...) } catch (err) {
await message.reply(...) }` — the catch only sends a reply; no store
mutation and in particular no `failMigrationRun` call happens on the
error path, so the store is exactly what the engine left behind. -/
def handlePull (decrypt encrypt : String → String) (retryAttempts : Nat)
    (menv : MigEnv) (targetGuildId initiatedBy : String) (db : DbState) :
    DbState :=
  (executeMigration decrypt encrypt retryAttempts menv targetGuildId
    initiatedBy db).2

/-! ## Supporting lemmas -/

theorem rlStep_ge (m last now : Nat) (h : last ≤ now) :
    last + m ≤ rlStep m last now := by
  unfold rlStep
  omega

theorem rlReleases_gap (m : Nat) :
    ∀ (arrivals : List Nat) (last : Nat),
      seqArrivals m last arrivals = true →
      ∀ k, (hk : k + 1 < (rlReleases m last arrivals).length) →
      (rlReleases m last arrivals)[k] + m ≤ (rlReleases m last arrivals)[k + 1] := by
  intro arrivals
  induction arrivals with
  | nil =>
      intro last _ k hk
      simp [rlReleases] at hk
  | cons now rest ih =>
      intro last h k hk
      rw [seqArrivals, Bool.and_eq_true, Nat.ble_eq] at h
      obtain ⟨h1, h2⟩ := h
      cases k with
      | zero =>
          cases rest with
          | nil => simp [rlReleases] at hk
          | cons now2 rest2 =>
              have hseq2 := h2
              rw [seqArrivals, Bool.and_eq_true, Nat.ble_eq] at hseq2
              simp only [rlReleases, List.getElem_cons_zero, List.getElem_cons_succ]
              exact rlStep_ge m (rlStep m last now) now2 hseq2.1
      | succ k2 =>
          have hk2 : k2 + 1 < (rlReleases m (rlStep m last now) rest).length := by
            simpa [rlReleases] using hk
          have := ih (rlStep m last now) h2 k2 hk2
          simpa [rlReleases] using this

theorem gaps_to_span (rs : List Nat) (m : Nat)
    (hgap : ∀ k, (hk : k + 1 < rs.length) → rs[k] + m ≤ rs[k + 1]) :
    ∀ i j (hi : i < rs.length) (hj : j < rs.length), i ≤ j →
    rs[i] + (j - i) * m ≤ rs[j] := by
  intro i j
  induction j with
  | zero =>
      intro hi hj hij
      have : i = 0 := Nat.le_zero.mp hij
      subst this
      simp
  | succ j ih =>
      intro hi hj hij
      rcases Nat.lt_or_ge i (j + 1) with hlt | hge
      · have hij2 : i ≤ j := Nat.lt_succ_iff.mp hlt
        have hj2 : j < rs.length := Nat.lt_of_succ_lt hj
        have h1 := ih hi hj2 hij2
        have h2 := hgap j hj
        have e : (j + 1 - i) * m = (j - i) * m + m := by
          rw [Nat.succ_sub hij2, Nat.succ_mul]
        rw [e]
        omega
      · have : i = j + 1 := Nat.le_antisymm hij hge
        subst this
        simp

theorem minInterval_rate (R : Nat) (hR : 1 ≤ R) : 1000 ≤ R * minIntervalOf R := by
  have hdm := Nat.div_add_mod (999 + R) R
  have hmod : (999 + R) % R < R := Nat.mod_lt _ (by omega)
  have e : 1000 + R - 1 = 999 + R := by omega
  unfold minIntervalOf
  rw [e]
  omega

/-! ## C2 — rate bound -/

/-- C2.  N sequential `acquire()` calls at a configured rate of `R`
requests per second are released at least `1000/R` milliseconds apart
(release to release, independent of downstream work): between releases
`i ≤ j` at least `(j - i) * 1000 / R` milliseconds pass, stated
multiplied through by `R`; with `i = 0`, `j = N - 1` the `N` releases
span at least `(N-1)/R` seconds of wall-clock time. -/
theorem mig_c2_rate_bound (R : Nat) (arrivals : List Nat) (hR : 1 ≤ R)
    (hseq : seqArrivals (minIntervalOf R) 0 arrivals = true)
    (i j : Nat) (hi : i < (rlReleases (minIntervalOf R) 0 arrivals).length)
    (hj : j < (rlReleases (minIntervalOf R) 0 arrivals).length) (hij : i ≤ j) :
    R * (rlReleases (minIntervalOf R) 0 arrivals)[i] + 1000 * (j - i) ≤
      R * (rlReleases (minIntervalOf R) 0 arrivals)[j] := by
  have hspan := gaps_to_span (rlReleases (minIntervalOf R) 0 arrivals)
    (minIntervalOf R) (rlReleases_gap (minIntervalOf R) arrivals 0 hseq) i j hi hj hij
  have h1 := Nat.mul_le_mul_left R hspan
  have h2 := Nat.mul_le_mul_right (j - i) (minInterval_rate R hR)
  nlinarith [h1, h2]

/-- C2 witness: rate 5/sec, three sequential calls arriving at times
0, 200, 400 are released at 200, 400 and 600, spanning 400 ms ≥
(3-1)/5 seconds. -/
theorem mig_c2_rate_bound_witness :
    5 * (rlReleases (minIntervalOf 5) 0 [0, 200, 400])[0] + 1000 * (2 - 0) ≤
      5 * (rlReleases (minIntervalOf 5) 0 [0, 200, 400])[2] :=
  mig_c2_rate_bound 5 [0, 200, 400] (by decide) (by decide) 0 2
    (by decide) (by decide) (by decide)

/-! ## C3 — retry semantics -/

/-- C3.  With `maxAttempts = 3`: (1) an operation failing on attempts 1
and 2 and succeeding on attempt 3, with `retryOn` accepting both errors,
returns the attempt-3 result after exactly 3 invocations (2 retries), and
no further attempts occur; (2) an operation failing on every attempt with
always-retryable errors propagates the third attempt's error unchanged;
(3) a first-attempt error rejected by `retryOn` propagates unchanged
after a single invocation; (4) likewise a second-attempt error rejected
by `retryOn` propagates unchanged after exactly two invocations. -/
theorem mig_c3_retry {α : Type} (fn : Nat → Except String α)
    (retryOn : String → Bool) :
    (∀ (e1 e2 : String) (a : α), fn 1 = .error e1 → fn 2 = .error e2 →
      fn 3 = .ok a → retryOn e1 = true → retryOn e2 = true →
      retryWithBackoff fn retryOn 3 = .ok a ∧
        retryAttemptsMade fn retryOn 3 = 3) ∧
    (∀ es : Nat → String, (∀ i, fn i = .error (es i)) →
      (∀ e, retryOn e = true) →
      retryWithBackoff fn retryOn 3 = .error (es 3) ∧
        retryAttemptsMade fn retryOn 3 = 3) ∧
    (∀ e1 : String, fn 1 = .error e1 → retryOn e1 = false →
      retryWithBackoff fn retryOn 3 = .error e1 ∧
        retryAttemptsMade fn retryOn 3 = 1) ∧
    (∀ e1 e2 : String, fn 1 = .error e1 → retryOn e1 = true →
      fn 2 = .error e2 → retryOn e2 = false →
      retryWithBackoff fn retryOn 3 = .error e2 ∧
        retryAttemptsMade fn retryOn 3 = 2) := by
  refine ⟨?_, ?_, ?_, ?_⟩
  · intro e1 e2 a h1 h2 h3 hr1 hr2
    constructor <;>
      simp [retryWithBackoff, retryAttemptsMade, retryFrom, h1, h2, h3, hr1, hr2]
  · intro es hfail hr
    constructor <;>
      simp [retryWithBackoff, retryAttemptsMade, retryFrom, hfail 1, hfail 2,
        hfail 3, hr]
  · intro e1 h1 hr1
    constructor <;>
      simp [retryWithBackoff, retryAttemptsMade, retryFrom, h1, hr1]
  · intro e1 e2 h1 hr1 h2 hr2
    constructor <;>
      simp [retryWithBackoff, retryAttemptsMade, retryFrom, h1, h2, hr1, hr2]

/-- C3 witness: a concrete operation failing twice then returning 42
succeeds with 3 invocations; one always failing propagates the final
error; one with a non-retryable first error stops at once. -/
theorem mig_c3_retry_witness :
    (retryWithBackoff (fun i => if i < 3 then .error (toString i) else .ok 42)
        (fun _ => true) 3 = .ok 42 ∧
      retryAttemptsMade (fun i => if i < 3 then .error (toString i) else .ok 42)
        (fun _ => true) 3 = 3) ∧
    (retryWithBackoff (fun i => (.error (toString i) : Except String Nat))
        (fun _ => true) 3 = .error "3" ∧
      retryAttemptsMade (fun i => (.error (toString i) : Except String Nat))
        (fun _ => true) 3 = 3) ∧
    (retryWithBackoff (fun _ => (.error "fatal" : Except String Nat))
        (fun _ => false) 3 = .error "fatal" ∧
      retryAttemptsMade (fun _ => (.error "fatal" : Except String Nat))
        (fun _ => false) 3 = 1) := by
  refine ⟨?_, ?_, ?_⟩
  · exact (mig_c3_retry (fun i => if i < 3 then .error (toString i) else .ok 42)
      (fun _ => true)).1 "1" "2" 42 rfl rfl rfl rfl rfl
  · exact (mig_c3_retry (fun i => (.error (toString i) : Except String Nat))
      (fun _ => true)).2.1 toString (fun _ => rfl) (fun _ => rfl)
  · exact (mig_c3_retry (fun _ => (.error "fatal" : Except String Nat))
      (fun _ => false)).2.2.1 "fatal" rfl rfl

/-! ## C4 — refresh buffering -/

/-- C4.  A principal whose credential expiry lies strictly more than
`TOKEN_REFRESH_BUFFER_SECONDS` (3600 s) in the future triggers no refresh
network call: `ensureFreshToken` returns the decrypted stored access
credential and leaves the row untouched.  A principal whose expiry is
within the buffer (or past) triggers exactly one refresh call. -/
theorem mig_c4_refresh_buffer (decrypt encrypt : String → String) (now : Int)
    (refreshResult : Except String (String × String × Int)) (user : UserRow) :
    (user.token_expires_at - now > tokenRefreshBufferSeconds * 1000 →
      ensureFreshToken decrypt encrypt now refreshResult user =
        ⟨.ok (decrypt (user.access_token.getD "")), 0, .noUpdate⟩) ∧
    (user.token_expires_at - now ≤ tokenRefreshBufferSeconds * 1000 →
      (ensureFreshToken decrypt encrypt now refreshResult user).refreshCalls = 1) := by
  constructor
  · intro h
    unfold ensureFreshToken
    rw [if_pos h]
  · intro h
    unfold ensureFreshToken
    rw [if_neg (by omega)]
    rcases refreshResult with e | ⟨a, r, i⟩
    · by_cases hsig : (containsStr "invalid_grant" e || containsStr "revoked" e) = true
      · simp [hsig]
      · simp [hsig]
    · rfl

/-- C4 witness: with the clock at 0, expiry at 3 600 001 ms is outside
the buffer and the stored token comes back decrypted with zero refresh
calls; expiry at 3 600 000 ms is inside and one refresh call happens. -/
theorem mig_c4_refresh_buffer_witness :
    (ensureFreshToken id id 0 (.error "net")
        ⟨"A", some "tok", some "ref", 3600001, false, false, 1⟩ =
      ⟨.ok "tok", 0, .noUpdate⟩) ∧
    (ensureFreshToken id id 0 (.error "net")
        ⟨"A", some "tok", some "ref", 3600000, false, false, 1⟩).refreshCalls = 1 :=
  ⟨(mig_c4_refresh_buffer id id 0 (.error "net")
      ⟨"A", some "tok", some "ref", 3600001, false, false, 1⟩).1 (by decide),
   (mig_c4_refresh_buffer id id 0 (.error "net")
      ⟨"A", some "tok", some "ref", 3600000, false, false, 1⟩).2 (by decide)⟩

/-! ## C5 — refresh failure handling -/

/-- C5.  When a refresh is due and the exchange fails with message `msg`:
if the provider signals the refresh grant itself is invalid (the message
includes `'invalid_grant'` or `'revoked'`), the call fails with
`TOKEN_REVOKED` and the persisted effect is `markTokenRevoked` — the
principal's row gets `token_revoked = true` with both stored credentials
cleared; for any other failure the error propagates unchanged (logged as
the `refresh_failed` outcome by the engine), the persisted effect is none,
and the stored table is left completely unchanged. -/
theorem mig_c5_refresh_failure (decrypt encrypt : String → String) (now : Int)
    (msg : String) (user : UserRow) (users : List UserRow)
    (hexp : user.token_expires_at - now ≤ tokenRefreshBufferSeconds * 1000) :
    ((containsStr "invalid_grant" msg || containsStr "revoked" msg) = true →
      ensureFreshToken decrypt encrypt now (.error msg) user =
        ⟨.error "TOKEN_REVOKED", 1, .setRevoked⟩ ∧
      applyUserUpdate users user.discord_id .setRevoked =
        markTokenRevoked users user.discord_id ∧
      (∀ u ∈ markTokenRevoked users user.discord_id,
        u.discord_id = user.discord_id →
        u.token_revoked = true ∧ u.access_token = none ∧
          u.refresh_token = none)) ∧
    ((containsStr "invalid_grant" msg || containsStr "revoked" msg) = false →
      ensureFreshToken decrypt encrypt now (.error msg) user =
        ⟨.error msg, 1, .noUpdate⟩ ∧
      applyUserUpdate users user.discord_id .noUpdate = users) := by
  constructor
  · intro hsig
    refine ⟨?_, rfl, ?_⟩
    · unfold ensureFreshToken
      rw [if_neg (by omega)]
      simp [hsig]
    · intro u hu hid
      unfold markTokenRevoked at hu
      rw [List.mem_map] at hu
      obtain ⟨u0, _, hmap⟩ := hu
      by_cases h0 : u0.discord_id = user.discord_id
      · rw [if_pos h0] at hmap
        subst hmap
        exact ⟨rfl, rfl, rfl⟩
      · rw [if_neg h0] at hmap
        subst hmap
        exact absurd hid h0
  · intro hsig
    refine ⟨?_, rfl⟩
    unfold ensureFreshToken
    rw [if_neg (by omega)]
    simp [hsig]

/-- C5 witness: a refresh failure whose message includes `invalid_grant`
revokes and clears the concrete row; a plain network failure leaves the
table unchanged and rethrows the message. -/
theorem mig_c5_refresh_failure_witness :
    (ensureFreshToken id id 0 (.error "Token refresh failed: invalid_grant")
        ⟨"A", some "tok", some "ref", 0, false, false, 1⟩ =
      ⟨.error "TOKEN_REVOKED", 1, .setRevoked⟩ ∧
      (∀ u ∈ markTokenRevoked [⟨"A", some "tok", some "ref", 0, false, false, 1⟩] "A",
        u.discord_id = "A" →
        u.token_revoked = true ∧ u.access_token = none ∧
          u.refresh_token = none)) ∧
    (ensureFreshToken id id 0 (.error "socket hang up")
        ⟨"A", some "tok", some "ref", 0, false, false, 1⟩ =
      ⟨.error "socket hang up", 1, .noUpdate⟩ ∧
      applyUserUpdate [⟨"A", some "tok", some "ref", 0, false, false, 1⟩] "A"
        .noUpdate = [⟨"A", some "tok", some "ref", 0, false, false, 1⟩]) := by
  constructor
  · have h := mig_c5_refresh_failure id id 0 "Token refresh failed: invalid_grant"
      ⟨"A", some "tok", some "ref", 0, false, false, 1⟩
      [⟨"A", some "tok", some "ref", 0, false, false, 1⟩] (by decide)
    exact ⟨(h.1 (by decide)).1, (h.1 (by decide)).2.2⟩
  · have h := mig_c5_refresh_failure id id 0 "socket hang up"
      ⟨"A", some "tok", some "ref", 0, false, false, 1⟩
      [⟨"A", some "tok", some "ref", 0, false, false, 1⟩] (by decide)
    exact h.2 (by decide)

/-! ## C10 — refresh_failed shares the token-revoked counter -/

/-- C10.  In both `switch` statements of `executeMigration` — the
current-pass tally and the resumed-run merge — a `refresh_failed` item
outcome feeds the very counter a `token_revoked` outcome feeds; over any
sequence of merged outcomes the `tokenRevoked` counter accumulates the
`token_revoked` and the `refresh_failed` occurrences together; and the
run record `completeMigrationRun` persists is determined by the five
counters `added`, `alreadyIn`, `failed`, `skippedManual`, `tokenRevoked`
alone, so it carries no separate refresh-failed count. -/
theorem mig_c10_refresh_failed_tally (c c2 : Counts)
    (statuses : List MigStatus) (db : DbState) (runId : Nat) (now : Int) :
    loopTally c .refresh_failed = loopTally c .token_revoked ∧
    mergeTally c .refresh_failed = mergeTally c .token_revoked ∧
    (statuses.foldl mergeTally c).tokenRevoked =
      c.tokenRevoked + statuses.count .token_revoked +
        statuses.count .refresh_failed ∧
    (c.added = c2.added → c.alreadyIn = c2.alreadyIn → c.failed = c2.failed →
      c.skippedManual = c2.skippedManual → c.tokenRevoked = c2.tokenRevoked →
      completeMigrationRun db runId c now = completeMigrationRun db runId c2 now) := by
  refine ⟨rfl, rfl, ?_, ?_⟩
  · induction statuses generalizing c with
    | nil => simp
    | cons s rest ih =>
        rw [List.foldl_cons, ih (mergeTally c s)]
        cases s <;> simp [mergeTally, List.count_cons] <;> omega
  · intro h1 h2 h3 h4 h5
    unfold completeMigrationRun
    rw [h1, h2, h3, h4, h5]

/-- C10 witness: merging the outcome list
`[token_revoked, refresh_failed, added]` into zeroed counts yields
`tokenRevoked = 2`, and two counts objects differing only in `total`
persist identical run records. -/
theorem mig_c10_refresh_failed_tally_witness :
    ([MigStatus.token_revoked, .refresh_failed, .added].foldl mergeTally
        ⟨0, 0, 0, 0, 0, 3⟩).tokenRevoked = 0 + 1 + 1 ∧
    completeMigrationRun ⟨[], [], [], 1⟩ 1 ⟨1, 0, 0, 1, 2, 3⟩ 0 =
      completeMigrationRun ⟨[], [], [], 1⟩ 1 ⟨1, 0, 0, 1, 2, 99⟩ 0 := by
  have h := mig_c10_refresh_failed_tally ⟨1, 0, 0, 1, 2, 3⟩ ⟨1, 0, 0, 1, 2, 99⟩
    [MigStatus.token_revoked, .refresh_failed, .added] ⟨[], [], [], 1⟩ 1 0
  refine ⟨?_, h.2.2.2 rfl rfl rfl rfl rfl⟩
  have h2 := mig_c10_refresh_failed_tally ⟨0, 0, 0, 0, 0, 3⟩ ⟨0, 0, 0, 0, 0, 3⟩
    [MigStatus.token_revoked, .refresh_failed, .added] ⟨[], [], [], 1⟩ 1 0
  rw [h2.2.2.1]
  decide

/-! ## C8 — end-to-end example -/

/-- Candidate A of the spec's end-to-end example: valid credential, far
from expiry. -/
def exUserA : UserRow := ⟨"A", some "encA", some "encRA", 1000000000, false, false, 1⟩

/-- Candidate B: manually authorized, no credential. -/
def exUserB : UserRow := ⟨"B", none, none, 0, true, false, 2⟩

/-- Candidate C: revoked. -/
def exUserC : UserRow := ⟨"C", some "encC", some "encRC", 0, false, true, 3⟩

/-- Join oracle of the example: `join(A)` returns `added`; nobody else
reaches the join call. -/
def exEnv : MigEnv :=
  ⟨true, 0, fun uid =>
    if uid = "A" then ⟨.error "never", fun _ => .added⟩
    else ⟨.error "never", fun _ => .failed "unreachable"⟩⟩

/-- The run record the example starts from. -/
def exRun : RunRow := ⟨1, "g", "owner", 0, none, 3, 0, 0, 0, 0, 0, .running, none⟩

/-- Store at the start of the example run. -/
def exDb : DbState := ⟨[exUserA, exUserB, exUserC], [exRun], [], 2⟩

/-- The example run, uninterrupted and with nothing previously
processed, over the candidate set `[A, B, C]`. -/
def exFinal : DbState :=
  migrateUsers id id 3 exEnv 1 [] [exUserA, exUserB, exUserC] exDb

/-- C8.  For the candidate set `[A(valid credential),
B(manuallyAuthorized, no credential), C(revoked)]` with `join(A)` →
`added`, a full uninterrupted run finalizes the run record to status
`completed` with counts added 1, already-in 0, skipped-manual 1,
token-revoked 1, failed 0, and no item was logged `refresh_failed`. -/
theorem mig_c8_end_to_end :
    exFinal.runs = [⟨1, "g", "owner", 0, some 0, 3, 1, 0, 0, 1, 1,
      .completed, none⟩] ∧
    exFinal.itemLog.countP (fun e => e.status = .refresh_failed) = 0 ∧
    exFinal.itemLog.map (fun e => (e.discord_id, e.status)) =
      [("A", .added), ("B", .skipped_manual), ("C", .token_revoked)] := by
  decide

/-! ## Shape lemmas for the per-item body and the loop -/

theorem processSingleUser_shape (d e : String → String) (ra : Nat)
    (env : UserEnv) (now : Int) (runId : Nat) (u : UserRow) :
    (∃ s detail upd, processSingleUser d e ra env now runId u =
      ⟨.ok s, [⟨runId, u.discord_id, s, detail⟩], upd⟩) ∨
    (∃ err upd, processSingleUser d e ra env now runId u =
      ⟨.error err, [], upd⟩) := by
  unfold processSingleUser
  repeat' split
  all_goals first
    | exact .inl ⟨_, _, _, rfl⟩
    | exact .inr ⟨_, _, rfl⟩

theorem processSingleUser_log_mem (d e : String → String) (ra : Nat)
    (env : UserEnv) (now : Int) (runId : Nat) (u : UserRow) (entry : LogEntry)
    (h : entry ∈ (processSingleUser d e ra env now runId u).logs) :
    entry.migration_run_id = runId ∧ entry.discord_id = u.discord_id := by
  rcases processSingleUser_shape d e ra env now runId u with
    ⟨s, detail, upd, heq⟩ | ⟨err, upd, heq⟩
  · rw [heq] at h
    simp only [List.mem_singleton] at h
    subst h
    exact ⟨rfl, rfl⟩
  · rw [heq] at h
    simp at h

theorem processSingleUser_ok_logs (d e : String → String) (ra : Nat)
    (env : UserEnv) (now : Int) (runId : Nat) (u : UserRow) (s : MigStatus)
    (h : (processSingleUser d e ra env now runId u).result = .ok s) :
    ∃ detail, (processSingleUser d e ra env now runId u).logs =
      [⟨runId, u.discord_id, s, detail⟩] := by
  rcases processSingleUser_shape d e ra env now runId u with
    ⟨s2, detail, upd, heq⟩ | ⟨err, upd, heq⟩
  · rw [heq] at h ⊢
    simp only [Except.ok.injEq] at h
    subst h
    exact ⟨detail, rfl⟩
  · rw [heq] at h
    simp at h

theorem processSingleUser_error_logs (d e : String → String) (ra : Nat)
    (env : UserEnv) (now : Int) (runId : Nat) (u : UserRow) (err : String)
    (h : (processSingleUser d e ra env now runId u).result = .error err) :
    (processSingleUser d e ra env now runId u).logs = [] := by
  rcases processSingleUser_shape d e ra env now runId u with
    ⟨s2, detail, upd, heq⟩ | ⟨err2, upd, heq⟩
  · rw [heq] at h
    simp at h
  · rw [heq]

theorem runStep_db_runs (d e : String → String) (ra : Nat) (menv : MigEnv)
    (runId : Nat) (st : EngineState) (u : UserRow) :
    (runStep d e ra menv runId st u).db.runs = st.db.runs := by
  unfold runStep
  split <;> rfl

theorem runStep_db_nextRunId (d e : String → String) (ra : Nat) (menv : MigEnv)
    (runId : Nat) (st : EngineState) (u : UserRow) :
    (runStep d e ra menv runId st u).db.nextRunId = st.db.nextRunId := by
  unfold runStep
  split <;> rfl

theorem runStep_db_itemLog (d e : String → String) (ra : Nat) (menv : MigEnv)
    (runId : Nat) (st : EngineState) (u : UserRow) :
    (runStep d e ra menv runId st u).db.itemLog =
      st.db.itemLog ++
        (processSingleUser d e ra (menv.userEnv u.discord_id) menv.now runId u).logs := by
  unfold runStep
  split <;> rename_i heq <;> rw [heq]

theorem runLoop_db_runs (d e : String → String) (ra : Nat) (menv : MigEnv)
    (runId : Nat) (users : List UserRow) :
    ∀ st, (runLoop d e ra menv runId users st).db.runs = st.db.runs := by
  induction users with
  | nil => intro st; rfl
  | cons u rest ih =>
      intro st
      show (runLoop d e ra menv runId rest
        (runStep d e ra menv runId st u)).db.runs = st.db.runs
      rw [ih, runStep_db_runs]

theorem runLoop_db_itemLog (d e : String → String) (ra : Nat) (menv : MigEnv)
    (runId : Nat) (users : List UserRow) :
    ∀ st, (runLoop d e ra menv runId users st).db.itemLog =
      st.db.itemLog ++
        (users.map (fun u =>
          (processSingleUser d e ra (menv.userEnv u.discord_id) menv.now runId u).logs)).flatten := by
  induction users with
  | nil => intro st; simp [runLoop]
  | cons u rest ih =>
      intro st
      show (runLoop d e ra menv runId rest
        (runStep d e ra menv runId st u)).db.itemLog = _
      rw [ih, runStep_db_itemLog]
      simp [List.append_assoc]

/-! ## Keys of the resumed outcome map -/

theorem jsMapInsert_hasKey (m : List (String × MigStatus))
    (p : String × MigStatus) (x : String) :
    ((jsMapInsert m p).any (fun q => q.1 = x) = true) ↔
      (m.any (fun q => q.1 = x) = true ∨ p.1 = x) := by
  unfold jsMapInsert
  by_cases h : m.any (fun q => q.1 = p.1) = true
  · rw [if_pos h]
    simp only [List.any_eq_true, List.mem_map, decide_eq_true_eq] at h ⊢
    constructor
    · rintro ⟨q, ⟨q0, hq0, hq0eq⟩, hqx⟩
      subst hq0eq
      by_cases hq1 : q0.1 = p.1
      · rw [if_pos hq1] at hqx
        right
        exact hqx
      · rw [if_neg hq1] at hqx
        left
        exact ⟨q0, hq0, hqx⟩
    · rintro (⟨q, hq, hqx⟩ | hpx)
      · by_cases hq1 : q.1 = p.1
        · refine ⟨p, ⟨q, hq, ?_⟩, ?_⟩
          · rw [if_pos hq1]
          · rw [← hq1]
            exact hqx
        · refine ⟨q, ⟨q, hq, ?_⟩, hqx⟩
          rw [if_neg hq1]
      · obtain ⟨q, hq, hq1⟩ := h
        refine ⟨p, ⟨q, hq, ?_⟩, hpx⟩
        rw [if_pos hq1]
  · rw [if_neg h]
    simp [List.any_append]

theorem jsMap_hasKey (pairs : List (String × MigStatus)) (x : String) :
    jsMapHas (jsMap pairs) x = true ↔ x ∈ pairs.map Prod.fst := by
  suffices h : ∀ m, ((pairs.foldl jsMapInsert m).any (fun q => q.1 = x) = true) ↔
      (m.any (fun q => q.1 = x) = true ∨ x ∈ pairs.map Prod.fst) by
    simpa [jsMap, jsMapHas] using h []
  induction pairs with
  | nil => intro m; simp
  | cons p rest ih =>
      intro m
      rw [List.foldl_cons, ih (jsMapInsert m p), jsMapInsert_hasKey]
      simp only [List.map_cons, List.mem_cons]
      constructor
      · rintro ((hm | hp) | hrest)
        · exact .inl hm
        · exact .inr (.inl hp.symm)
        · exact .inr (.inr hrest)
      · rintro (hm | hp | hrest)
        · exact .inl (.inl hm)
        · exact .inl (.inr hp.symm)
        · exact .inr hrest

/-- Membership in the keys of the resumed outcome map is exactly
membership among the run's logged `discord_id`s. -/
theorem getProcessedUsersForRun_hasKey (db : DbState) (runId : Nat) (x : String) :
    jsMapHas (getProcessedUsersForRun db runId) x = true ↔
      x ∈ (db.itemLog.filter (fun e => e.migration_run_id = runId)).map
        (fun e => e.discord_id) := by
  unfold getProcessedUsersForRun
  rw [jsMap_hasKey, List.map_map]
  rfl

/-! ## Candidate-provider lemmas -/

theorem getAllVerifiedUsers_perm (db : DbState) :
    (getAllVerifiedUsers db).Perm (db.users.filter (fun u => !u.token_revoked)) :=
  List.perm_insertionSort _ _

theorem getAllVerifiedUsers_not_revoked (db : DbState) :
    ∀ u ∈ getAllVerifiedUsers db, u.token_revoked = false := by
  intro u hu
  have hmem := (getAllVerifiedUsers_perm db).subset hu
  rw [List.mem_filter] at hmem
  simpa using hmem.2

theorem getAllVerifiedUsers_mem_users (db : DbState) :
    ∀ u ∈ getAllVerifiedUsers db, u ∈ db.users := by
  intro u hu
  have hmem := (getAllVerifiedUsers_perm db).subset hu
  exact (List.mem_filter.mp hmem).1

theorem getAllVerifiedUsers_ids_nodup (db : DbState)
    (h : (db.users.map (fun u => u.discord_id)).Nodup) :
    ((getAllVerifiedUsers db).map (fun u => u.discord_id)).Nodup := by
  have hperm := (getAllVerifiedUsers_perm db).map (fun u => u.discord_id)
  rw [hperm.nodup_iff]
  exact h.sublist ((List.filter_sublist db.users).map _)

/-! ## Store-preservation lemmas for the finalization layer -/

theorem completeMigrationRun_itemLog (db : DbState) (runId : Nat)
    (counts : Counts) (now : Int) :
    (completeMigrationRun db runId counts now).itemLog = db.itemLog := rfl

theorem completeMigrationRun_not_failed (db : DbState) (runId : Nat)
    (counts : Counts) (now : Int)
    (h : ∀ r ∈ db.runs, r.status ≠ RunStatus.failed) :
    ∀ r ∈ (completeMigrationRun db runId counts now).runs,
      r.status ≠ RunStatus.failed := by
  intro r hr
  unfold completeMigrationRun at hr
  simp only [List.mem_map] at hr
  obtain ⟨r0, hr0, heq⟩ := hr
  by_cases hid : r0.id = runId
  · rw [if_pos hid] at heq
    subst heq
    simp
  · rw [if_neg hid] at heq
    subst heq
    exact h r0 hr0

theorem migrateUsers_itemLog (d e : String → String) (ra : Nat) (menv : MigEnv)
    (runId : Nat) (already : List (String × MigStatus)) (utp : List UserRow)
    (db : DbState) :
    (migrateUsers d e ra menv runId already utp db).itemLog =
      db.itemLog ++
        (utp.map (fun u =>
          (processSingleUser d e ra (menv.userEnv u.discord_id) menv.now runId u).logs)).flatten := by
  unfold migrateUsers
  rw [completeMigrationRun_itemLog, runLoop_db_itemLog]

theorem migrateUsers_not_failed (d e : String → String) (ra : Nat) (menv : MigEnv)
    (runId : Nat) (already : List (String × MigStatus)) (utp : List UserRow)
    (db : DbState) (h : ∀ r ∈ db.runs, r.status ≠ RunStatus.failed) :
    ∀ r ∈ (migrateUsers d e ra menv runId already utp db).runs,
      r.status ≠ RunStatus.failed := by
  unfold migrateUsers
  apply completeMigrationRun_not_failed
  rw [runLoop_db_runs]
  exact h

/-! ## C7 — engine-level errors and the run record -/

/-- A `running` run for target `g` with one already-logged item, in a
store whose only user is revoked, so the engine's candidate fetch throws
`'No verified users found in the database.'` after resolving the run. -/
def c7Run : RunRow := ⟨7, "g", "owner", 0, none, 2, 0, 0, 0, 0, 0, .running, none⟩

/-- Store for the engine-level-error scenario. -/
def c7Db : DbState :=
  ⟨[⟨"C", some "encC", some "encRC", 0, false, true, 1⟩], [c7Run],
    [⟨7, "A", .added, none⟩], 8⟩

/-- Environment for the engine-level-error scenario: the bot is in the
guild, so validation passes. -/
def c7Env : MigEnv := ⟨true, 0, fun _ => ⟨.error "never", fun _ => .failed "x"⟩⟩

/-- C7 counterexample.  The engine resolves the existing `running` run
(so a run record exists) and then throws an engine-level exception in the
candidate fetch; the `?pull` handler catches it and only replies —
`failMigrationRun` is not invoked, the run keeps status `running` with no
error message, refuting the claim that the run is set to `failed` with
the message. -/
theorem mig_c7_engine_error_counterexample :
    getIncompleteMigrationRun c7Db "g" = some c7Run ∧
    executeMigration id id 3 c7Env "g" "owner" c7Db =
      (.error "No verified users found in the database.", c7Db) ∧
    (handlePull id id 3 c7Env "g" "owner" c7Db).runs = [c7Run] ∧
    c7Run.status = .running ∧ c7Run.error_message = none := by
  refine ⟨rfl, rfl, rfl, rfl, rfl⟩

/-- C7 amended.  An exception escaping the engine outside the per-item
boundary is caught by the `?pull` handler, which only replies with the
message: `failMigrationRun` is never invoked on any path, so after any
invocation no run record has status `failed` (unless it already had it),
the resolved run is left `running` and thereby resumable, and every
item-log entry already written is preserved (the handler leaves the
store's item log with the prior log as a prefix). -/
theorem mig_c7_engine_error_amended (d e : String → String) (ra : Nat)
    (menv : MigEnv) (target initiator : String) (db : DbState)
    (h : ∀ r ∈ db.runs, r.status ≠ RunStatus.failed) :
    (∀ r ∈ (handlePull d e ra menv target initiator db).runs,
      r.status ≠ RunStatus.failed) ∧
    db.itemLog <+: (handlePull d e ra menv target initiator db).itemLog := by
  simp only [handlePull, executeMigration]
  cases htk : menv.targetKnown with
  | false =>
      simp only [htk, Bool.not_false, eq_self_iff_true, if_true]
      exact ⟨h, List.prefix_refl _⟩
  | true =>
      simp only [htk, Bool.not_true, Bool.false_eq_true, if_false]
      by_cases hemp : (getAllVerifiedUsers db).isEmpty = true
      · rw [if_pos hemp]
        exact ⟨h, List.prefix_refl _⟩
      · rw [if_neg hemp]
        cases hex : getIncompleteMigrationRun db target with
        | some r =>
            simp only [hex]
            refine ⟨migrateUsers_not_failed _ _ _ _ _ _ _ _ h, ?_⟩
            rw [migrateUsers_itemLog]
            exact ⟨_, rfl⟩
        | none =>
            simp only [hex]
            refine ⟨?_, ?_⟩
            · apply migrateUsers_not_failed
              intro r2 hr2
              rcases List.mem_append.mp hr2 with hl | hr
              · exact h r2 hl
              · rw [List.mem_singleton] at hr
                subst hr
                simp [createMigrationRun]
            · rw [migrateUsers_itemLog]
              exact ⟨_, rfl⟩

/-- C7 witness for the amended theorem: on the concrete error scenario the
handler leaves no `failed` run and keeps the logged item. -/
theorem mig_c7_engine_error_amended_witness :
    (∀ r ∈ (handlePull id id 3 c7Env "g" "owner" c7Db).runs,
      r.status ≠ RunStatus.failed) ∧
    c7Db.itemLog <+: (handlePull id id 3 c7Env "g" "owner" c7Db).itemLog :=
  mig_c7_engine_error_amended id id 3 c7Env "g" "owner" c7Db
    (by decide)

/-! ## C6 — unexpected per-item failures -/

theorem runStep_of_error (d e : String → String) (ra : Nat) (menv : MigEnv)
    (runId : Nat) (st : EngineState) (u : UserRow) (err : String)
    (logs : List LogEntry) (upd : UserUpdate)
    (heq : processSingleUser d e ra (menv.userEnv u.discord_id) menv.now runId u =
      ⟨.error err, logs, upd⟩) :
    runStep d e ra menv runId st u =
      ⟨{ st.db with
          users := applyUserUpdate st.db.users u.discord_id upd
          itemLog := st.db.itemLog ++ logs },
        { st.counts with failed := st.counts.failed + 1 },
        st.failedUsers ++ [u.discord_id]⟩ := by
  unfold runStep
  rw [heq]

/-- On the happy path (bot in guild, nonempty candidate fetch) the engine
always reaches finalization and returns normally — the per-item loop is
total and never rethrows. -/
theorem executeMigration_ok (d e : String → String) (ra : Nat) (menv : MigEnv)
    (target initiator : String) (db : DbState)
    (htk : menv.targetKnown = true)
    (hne : (getAllVerifiedUsers db).isEmpty = false) :
    (executeMigration d e ra menv target initiator db).1 = .ok () := by
  simp only [executeMigration, htk, Bool.not_true, Bool.false_eq_true, if_false]
  rw [if_neg (by rw [hne]; exact Bool.false_ne_true)]

/-- An environment whose `X` is permanently rate limited at the join call
(the retry executor exhausts its attempts and rethrows `RATE_LIMITED`)
while `Y` joins cleanly. -/
def c6Env : MigEnv :=
  ⟨true, 0, fun uid =>
    if uid = "X" then ⟨.error "never", fun _ => .rate_limited 5⟩
    else ⟨.error "never", fun _ => .added⟩⟩

/-- Store for the unexpected-failure scenario: users X and Y with fresh
credentials and a `running` run with an empty item log. -/
def c6Db : DbState :=
  ⟨[⟨"X", some "encX", some "encRX", 1000000000, false, false, 1⟩,
    ⟨"Y", some "encY", some "encRY", 1000000000, false, false, 2⟩],
   [⟨3, "g", "owner", 0, none, 2, 0, 0, 0, 0, 0, .running, none⟩], [], 4⟩

/-- C6 counterexample.  User X's join is rate limited on all three
attempts, so the retry executor rethrows and the exception escapes the
per-item body.  The loop continues (Y is still processed, the run
completes normally with `failed_count = 1`), but X is *not* recorded as
`failed` in the item log: the final log holds no entry for X at all,
refuting the claim that the principal is recorded as failed. -/
theorem mig_c6_peritem_counterexample :
    (executeMigration id id 3 c6Env "g" "owner" c6Db).1 = .ok () ∧
    (executeMigration id id 3 c6Env "g" "owner" c6Db).2.itemLog =
      [⟨3, "Y", .added, none⟩] ∧
    (executeMigration id id 3 c6Env "g" "owner" c6Db).2.itemLog.countP
      (fun entry => entry.discord_id = "X") = 0 ∧
    (executeMigration id id 3 c6Env "g" "owner" c6Db).2.runs =
      [⟨3, "g", "owner", 0, some 0, 2, 1, 0, 1, 0, 0, .completed, none⟩] :=
  ⟨rfl, rfl, by decide, rfl⟩

/-- C6 amended.  An exception escaping the per-item body other than the
classified outcomes is caught: the principal is tallied as failed in the
run's in-memory counts and appended to the in-memory failed-user list —
but no item-log row is written for it — and the loop continues with the
remaining principals; the engine still reaches finalization normally, so
a single principal's unexpected failure never aborts the run. -/
theorem mig_c6_peritem_amended (d e : String → String) (ra : Nat)
    (menv : MigEnv) (runId : Nat) (st : EngineState) (u : UserRow)
    (rest : List UserRow) (err : String)
    (herr : (processSingleUser d e ra (menv.userEnv u.discord_id) menv.now runId u).result =
      .error err) :
    (runStep d e ra menv runId st u).db.itemLog = st.db.itemLog ∧
    (runStep d e ra menv runId st u).counts.failed = st.counts.failed + 1 ∧
    (runStep d e ra menv runId st u).failedUsers =
      st.failedUsers ++ [u.discord_id] ∧
    runLoop d e ra menv runId (u :: rest) st =
      runLoop d e ra menv runId rest (runStep d e ra menv runId st u) ∧
    (∀ target initiator db2, menv.targetKnown = true →
      (getAllVerifiedUsers db2).isEmpty = false →
      (executeMigration d e ra menv target initiator db2).1 = .ok ()) := by
  rcases processSingleUser_shape d e ra (menv.userEnv u.discord_id) menv.now runId u with
    ⟨s, detail, upd, heq⟩ | ⟨err2, upd, heq⟩
  · rw [heq] at herr
    simp at herr
  · have hstep := runStep_of_error d e ra menv runId st u err2 [] upd heq
    refine ⟨?_, ?_, ?_, rfl, ?_⟩
    · rw [hstep]
      simp
    · rw [hstep]
    · rw [hstep]
    · intro target initiator db2 htk hne
      exact executeMigration_ok d e ra menv target initiator db2 htk hne

/-- C6 witness for the amended theorem, on the concrete scenario: X's
step writes no log row, bumps the failed count, and the run still
completes. -/
theorem mig_c6_peritem_amended_witness :
    (runStep id id 3 c6Env 3
        ⟨c6Db, ⟨0, 0, 0, 0, 0, 2⟩, []⟩
        ⟨"X", some "encX", some "encRX", 1000000000, false, false, 1⟩).db.itemLog =
      c6Db.itemLog ∧
    (runStep id id 3 c6Env 3
        ⟨c6Db, ⟨0, 0, 0, 0, 0, 2⟩, []⟩
        ⟨"X", some "encX", some "encRX", 1000000000, false, false, 1⟩).counts.failed = 0 + 1 := by
  have h := mig_c6_peritem_amended id id 3 c6Env 3
    ⟨c6Db, ⟨0, 0, 0, 0, 0, 2⟩, []⟩
    ⟨"X", some "encX", some "encRX", 1000000000, false, false, 1⟩ [] "RATE_LIMITED" rfl
  exact ⟨h.1, h.2.1⟩

/-! ## C9 — the provider excludes revoked principals -/

theorem joinOperation_status (j : Nat → JoinApiResult) (a : Nat) (o : JoinOutcome)
    (h : joinOperation j a = .ok o) :
    o.status = .added ∨ o.status = .already_in ∨ o.status = .failed := by
  unfold joinOperation at h
  cases hja : j a <;> rw [hja] at h
  · simp only [Except.ok.injEq] at h
    subst h
    exact .inl rfl
  · simp only [Except.ok.injEq] at h
    subst h
    exact .inr (.inl rfl)
  · simp at h
  · simp only [Except.ok.injEq] at h
    subst h
    exact .inr (.inr rfl)

theorem retryFrom_ok_source {α : Type} (fn : Nat → Except String α)
    (p : String → Bool) :
    ∀ (n attempt : Nat) (a : α) (k : Nat),
      retryFrom fn p attempt n = (.ok a, k) → ∃ i, fn i = .ok a := by
  intro n
  induction n with
  | zero =>
      intro attempt a k h
      simp [retryFrom] at h
  | succ m ih =>
      intro attempt a k h
      rw [retryFrom] at h
      cases hfa : fn attempt with
      | ok b =>
          rw [hfa] at h
          simp only [Prod.mk.injEq, Except.ok.injEq] at h
          exact ⟨attempt, by rw [hfa, h.1]⟩
      | error er =>
          rw [hfa] at h
          dsimp only at h
          by_cases hc : (decide (m = 0) || !p er) = true
          · rw [if_pos hc] at h
            simp at h
          · rw [if_neg hc] at h
            rcases hrec : retryFrom fn p (attempt + 1) m with ⟨r, n2⟩
            rw [hrec] at h
            simp only [Prod.mk.injEq] at h
            exact ih (attempt + 1) a n2 (by rw [hrec, h.1])

theorem retryWithBackoff_join_status (j : Nat → JoinApiResult)
    (p : String → Bool) (n : Nat) (o : JoinOutcome)
    (h : retryWithBackoff (joinOperation j) p n = .ok o) :
    o.status = .added ∨ o.status = .already_in ∨ o.status = .failed := by
  unfold retryWithBackoff at h
  rcases hr : retryFrom (joinOperation j) p 1 n with ⟨res, k⟩
  rw [hr] at h
  have h2 : res = .ok o := by simpa using h
  subst h2
  obtain ⟨i, hi⟩ := retryFrom_ok_source (joinOperation j) p n 1 o k hr
  exact joinOperation_status j i o hi

/-- For a candidate whose row is not revoked, the pre-check branch that
logs `token_revoked` with detail `'Token previously revoked'` cannot
fire: no log row it writes carries that status-detail pair. -/
theorem processSingleUser_no_precheck_log (d e : String → String) (ra : Nat)
    (env : UserEnv) (now : Int) (runId : Nat) (u : UserRow)
    (hrev : u.token_revoked = false) :
    ∀ entry ∈ (processSingleUser d e ra env now runId u).logs,
      ¬(entry.status = .token_revoked ∧
        entry.error_message = some "Token previously revoked") := by
  intro entry hentry
  unfold processSingleUser at hentry
  by_cases h1 : (u.manually_verified && u.access_token.isNone) = true
  · rw [if_pos h1] at hentry
    simp only [List.mem_singleton] at hentry
    subst hentry
    rintro ⟨hs, _⟩
    simp at hs
  · rw [if_neg h1,
      if_neg (by rw [hrev]; exact Bool.false_ne_true)] at hentry
    rcases hef : ensureFreshToken d e now env.refreshResult u with ⟨tok, calls, upd⟩
    rw [hef] at hentry
    cases tok with
    | error er =>
        by_cases h3 : er = "TOKEN_REVOKED"
        · simp only [if_pos h3, List.mem_singleton] at hentry
          subst hentry
          rintro ⟨_, hd⟩
          simp at hd
        · simp only [if_neg h3, List.mem_singleton] at hentry
          subst hentry
          rintro ⟨hs, _⟩
          simp at hs
    | ok tok0 =>
        cases hrw : retryWithBackoff (joinOperation env.join)
            (fun e2 => e2 = "RATE_LIMITED") ra with
        | error er2 =>
            rw [hrw] at hentry
            simp at hentry
        | ok o =>
            rw [hrw] at hentry
            simp only [List.mem_singleton] at hentry
            subst hentry
            rintro ⟨hs, _⟩
            rcases retryWithBackoff_join_status env.join _ ra o hrw with
              h4 | h4 | h4 <;> rw [h4] at hs <;> simp at hs

/-- C9.  The candidate provider the engine uses, `getAllVerifiedUsers`,
returns only rows with `token_revoked = FALSE`; hence every candidate
entering the per-item loop is unrevoked and the pre-check branch of
`processSingleUser` that logs `token_revoked` with detail `'Token
previously revoked'` is unreachable for them; and (given distinct
`discord_id`s, the table's primary key) an already-revoked principal
never appears among the candidates and acquires no new item-log row at
all during a pass over any candidate sublist the engine derives from the
provider. -/
theorem mig_c9_provider_excludes_revoked (db : DbState)
    (d e : String → String) (ra : Nat) (menv : MigEnv) (runId : Nat)
    (hnodup : (db.users.map (fun u => u.discord_id)).Nodup) :
    (∀ u ∈ getAllVerifiedUsers db, u.token_revoked = false) ∧
    (∀ u ∈ getAllVerifiedUsers db,
      ∀ entry ∈ (processSingleUser d e ra (menv.userEnv u.discord_id)
        menv.now runId u).logs,
      ¬(entry.status = .token_revoked ∧
        entry.error_message = some "Token previously revoked")) ∧
    (∀ v ∈ db.users, v.token_revoked = true →
      (∀ u ∈ getAllVerifiedUsers db, u.discord_id ≠ v.discord_id) ∧
      (∀ already,
        ∀ entry ∈ (migrateUsers d e ra menv runId already
          ((getAllVerifiedUsers db).filter
            (fun u => !jsMapHas already u.discord_id)) db).itemLog.drop
          db.itemLog.length,
        entry.discord_id ≠ v.discord_id)) := by
  have hids : ∀ u ∈ getAllVerifiedUsers db, ∀ v ∈ db.users,
      v.token_revoked = true → u.discord_id ≠ v.discord_id := by
    intro u hu v hv hvrev heq
    have hu2 := getAllVerifiedUsers_mem_users db u hu
    have := List.inj_on_of_nodup_map hnodup hu2 hv heq
    subst this
    rw [getAllVerifiedUsers_not_revoked db u hu] at hvrev
    exact Bool.false_ne_true hvrev
  refine ⟨getAllVerifiedUsers_not_revoked db, ?_, ?_⟩
  · intro u hu
    exact processSingleUser_no_precheck_log d e ra _ menv.now runId u
      (getAllVerifiedUsers_not_revoked db u hu)
  · intro v hv hvrev
    refine ⟨fun u hu => hids u hu v hv hvrev, ?_⟩
    intro already entry hentry
    rw [migrateUsers_itemLog, List.drop_left] at hentry
    obtain ⟨logs, hlogs, hmem⟩ := List.mem_flatten.mp hentry
    obtain ⟨u, hu, hlogseq⟩ := List.mem_map.mp hlogs
    subst hlogseq
    have hucand : u ∈ getAllVerifiedUsers db :=
      List.mem_of_mem_filter hu
    have hid := (processSingleUser_log_mem d e ra _ menv.now runId u entry hmem).2
    rw [hid]
    exact hids u hucand v hv hvrev

/-- C9 witness: on the concrete store of the end-to-end example (whose
user ids are distinct and whose user C is revoked) the provider returns
only unrevoked candidates and C acquires no new log row. -/
theorem mig_c9_provider_excludes_revoked_witness :
    (∀ u ∈ getAllVerifiedUsers exDb, u.token_revoked = false) ∧
    (∀ u ∈ getAllVerifiedUsers exDb,
      ∀ entry ∈ (processSingleUser id id 3 (exEnv.userEnv u.discord_id)
        exEnv.now 1 u).logs,
      ¬(entry.status = .token_revoked ∧
        entry.error_message = some "Token previously revoked")) ∧
    (∀ v ∈ exDb.users, v.token_revoked = true →
      (∀ u ∈ getAllVerifiedUsers exDb, u.discord_id ≠ v.discord_id) ∧
      (∀ already,
        ∀ entry ∈ (migrateUsers id id 3 exEnv 1 already
          ((getAllVerifiedUsers exDb).filter
            (fun u => !jsMapHas already u.discord_id)) exDb).itemLog.drop
          exDb.itemLog.length,
        entry.discord_id ≠ v.discord_id)) :=
  mig_c9_provider_excludes_revoked exDb id id 3 exEnv 1 (by decide)

/-! ## C1 — resume correctness -/

/-- Whether a per-item body returned a classified outcome (as opposed to
rethrowing an exception such as an exhausted `RATE_LIMITED` retry). -/
def isOkResult : Except String MigStatus → Bool
  | .ok _ => true
  | .error _ => false

/-- The engine's `usersToProcess` conditional collapses to an
unconditional filter: with an empty outcome map the filter keeps
everything. -/
theorem usersToProcess_eq (m : List (String × MigStatus))
    (cands : List UserRow) :
    (if m.length > 0 then
        cands.filter (fun u => !jsMapHas m u.discord_id)
      else cands) =
      cands.filter (fun u => !jsMapHas m u.discord_id) := by
  cases m with
  | nil => simp [jsMapHas]
  | cons p rest => rw [if_pos (by simp)]

/-- When every processed user's body returns a classified outcome, the
log rows appended by the loop, restricted to the run, carry exactly the
processed users' ids in order. -/
theorem flatten_logs_ids (d e : String → String) (ra : Nat) (menv : MigEnv)
    (runId : Nat) :
    ∀ utp : List UserRow,
      (∀ u ∈ utp, isOkResult
        (processSingleUser d e ra (menv.userEnv u.discord_id) menv.now runId u).result = true) →
      (((utp.map (fun u =>
          (processSingleUser d e ra (menv.userEnv u.discord_id) menv.now runId u).logs)).flatten.filter
        (fun entry => entry.migration_run_id = runId)).map
        (fun entry => entry.discord_id)) = utp.map (fun u => u.discord_id) := by
  intro utp
  induction utp with
  | nil => intro _; rfl
  | cons u rest ih =>
      intro hok
      have hu := hok u (List.mem_cons_self u rest)
      cases hres : (processSingleUser d e ra (menv.userEnv u.discord_id)
          menv.now runId u).result with
      | error er => rw [hres] at hu; simp [isOkResult] at hu
      | ok s =>
          obtain ⟨detail, hlogs⟩ := processSingleUser_ok_logs d e ra
            (menv.userEnv u.discord_id) menv.now runId u s hres
          rw [List.map_cons, List.flatten_cons, List.filter_append,
            List.map_append, hlogs, List.map_cons,
            ih (fun w hw => hok w (List.mem_cons_of_mem u hw))]
          simp

/-- Resumed scenario in which candidate B's join is permanently rate
limited: prior pass logged A, the resumed pass attempts B and the retry
executor exhausts. -/
def c1Run : RunRow := ⟨9, "g", "owner", 0, none, 2, 0, 0, 0, 0, 0, .running, none⟩

/-- Store for the broken-resume scenario. -/
def c1Db : DbState :=
  ⟨[⟨"A", some "encA", some "encRA", 1000000000, false, false, 1⟩,
    ⟨"B", some "encB", some "encRB", 1000000000, false, false, 2⟩],
   [c1Run], [⟨9, "A", .added, none⟩], 10⟩

/-- Environment for the broken-resume scenario. -/
def c1Env : MigEnv :=
  ⟨true, 0, fun uid =>
    if uid = "B" then ⟨.error "never", fun _ => .rate_limited 5⟩
    else ⟨.error "never", fun _ => .added⟩⟩

/-- C1 counterexample.  The run is resumed (the `running` run is
resolved, A is skipped), B is a candidate of the resumed invocation, yet
the final item log contains no entry for B at all — B's join exhausted
its rate-limit retries, the exception escaped the per-item body, and
nothing was logged — refuting "the final item log contains each
candidate exactly once". -/
theorem mig_c1_resume_counterexample :
    getIncompleteMigrationRun c1Db "g" = some c1Run ∧
    (getAllVerifiedUsers c1Db).map (fun u => u.discord_id) = ["A", "B"] ∧
    (executeMigration id id 3 c1Env "g" "owner" c1Db).1 = .ok () ∧
    (executeMigration id id 3 c1Env "g" "owner" c1Db).2.itemLog.countP
      (fun entry => entry.discord_id = "B") = 0 := by
  refine ⟨rfl, rfl, rfl, by decide⟩

/-- Core of the resume argument, at the level of the processing stage:
with the outcome map taken from the run's item log, the prior rows
nodup by id, and every remaining user's body returning a classified
outcome, the stage preserves the prior log as a prefix and the final
per-run id multiset holds each candidate exactly once. -/
theorem resume_log_core (d e : String → String) (ra : Nat) (menv : MigEnv)
    (runId : Nat) (db : DbState) (already : List (String × MigStatus))
    (utp : List UserRow)
    (ha : already = getProcessedUsersForRun db runId)
    (hutp : utp = (getAllVerifiedUsers db).filter
      (fun u => !jsMapHas already u.discord_id))
    (hnodupUsers : (db.users.map (fun u => u.discord_id)).Nodup)
    (hnodupPrior : ((db.itemLog.filter
      (fun entry => entry.migration_run_id = runId)).map
      (fun entry => entry.discord_id)).Nodup)
    (hok : ∀ u ∈ getAllVerifiedUsers db,
      jsMapHas already u.discord_id = false →
      isOkResult (processSingleUser d e ra (menv.userEnv u.discord_id)
        menv.now runId u).result = true) :
    db.itemLog <+: (migrateUsers d e ra menv runId already utp db).itemLog ∧
    (∀ u ∈ getAllVerifiedUsers db,
      (((migrateUsers d e ra menv runId already utp db).itemLog.filter
        (fun entry => entry.migration_run_id = runId)).map
        (fun entry => entry.discord_id)).count u.discord_id = 1) ∧
    (((migrateUsers d e ra menv runId already utp db).itemLog.filter
      (fun entry => entry.migration_run_id = runId)).map
      (fun entry => entry.discord_id)).Nodup := by
  subst ha
  subst hutp
  rw [migrateUsers_itemLog]
  have hokutp : ∀ u ∈ (getAllVerifiedUsers db).filter
      (fun u => !jsMapHas (getProcessedUsersForRun db runId) u.discord_id),
      isOkResult (processSingleUser d e ra (menv.userEnv u.discord_id)
        menv.now runId u).result = true := by
    intro u hu
    have h2 := List.mem_filter.mp hu
    exact hok u h2.1 (by simpa using h2.2)
  have hids := flatten_logs_ids d e ra menv runId _ hokutp
  have hcandnodup := getAllVerifiedUsers_ids_nodup db hnodupUsers
  have hutpnodup : ((((getAllVerifiedUsers db).filter
      (fun u => !jsMapHas (getProcessedUsersForRun db runId) u.discord_id)).map
      (fun u => u.discord_id))).Nodup :=
    hcandnodup.sublist ((List.filter_sublist (getAllVerifiedUsers db)).map _)
  have hdisj : (((db.itemLog.filter
      (fun entry => entry.migration_run_id = runId)).map
      (fun entry => entry.discord_id)).Disjoint
      ((((getAllVerifiedUsers db).filter
        (fun u => !jsMapHas (getProcessedUsersForRun db runId) u.discord_id)).map
        (fun u => u.discord_id)))) := by
    intro x hxp hxu
    obtain ⟨w, hw, hwid⟩ := List.mem_map.mp hxu
    have h2 := List.mem_filter.mp hw
    have hwfalse : jsMapHas (getProcessedUsersForRun db runId) w.discord_id = false := by
      simpa using h2.2
    rw [← hwid] at hxp
    have htrue := (getProcessedUsersForRun_hasKey db runId w.discord_id).mpr hxp
    rw [hwfalse] at htrue
    exact Bool.false_ne_true htrue
  refine ⟨⟨_, rfl⟩, ?_, ?_⟩
  · intro u hu
    rw [List.filter_append, List.map_append, hids, List.count_append]
    by_cases hhas : jsMapHas (getProcessedUsersForRun db runId) u.discord_id = true
    · have hmem := (getProcessedUsersForRun_hasKey db runId u.discord_id).mp hhas
      have c1 := List.count_eq_one_of_mem hnodupPrior hmem
      have c2 : ((((getAllVerifiedUsers db).filter
          (fun u => !jsMapHas (getProcessedUsersForRun db runId) u.discord_id)).map
          (fun u => u.discord_id))).count u.discord_id = 0 := by
        rw [List.count_eq_zero]
        intro hmem2
        obtain ⟨w, hw, hwid⟩ := List.mem_map.mp hmem2
        have h2 := List.mem_filter.mp hw
        have hwfalse : jsMapHas (getProcessedUsersForRun db runId) w.discord_id = false := by
          simpa using h2.2
        rw [hwid] at hwfalse
        rw [hwfalse] at hhas
        exact Bool.false_ne_true hhas
      rw [c1, c2]
    · simp only [Bool.not_eq_true] at hhas
      have c1 : (((db.itemLog.filter
          (fun entry => entry.migration_run_id = runId)).map
          (fun entry => entry.discord_id))).count u.discord_id = 0 := by
        rw [List.count_eq_zero]
        intro hmem
        have htrue := (getProcessedUsersForRun_hasKey db runId u.discord_id).mpr hmem
        rw [hhas] at htrue
        exact Bool.false_ne_true htrue
      have hmemutp : u ∈ (getAllVerifiedUsers db).filter
          (fun u => !jsMapHas (getProcessedUsersForRun db runId) u.discord_id) :=
        List.mem_filter.mpr ⟨hu, by rw [hhas]; rfl⟩
      have c2 := List.count_eq_one_of_mem hutpnodup
        (List.mem_map.mpr ⟨u, hmemutp, rfl⟩)
      rw [c1, c2]
  · rw [List.filter_append, List.map_append, hids, List.nodup_append]
    exact ⟨hnodupPrior, hutpnodup, hdisj⟩

/-- C1 amended.  For a run interrupted after a prefix and re-invoked for
the same target: the resumed invocation resolves the existing `running`
run and skips exactly the principals present in that run's item log
(`usersToProcess` filters on the log-derived outcome map); provided every
*remaining* candidate's per-item body returns a classified outcome (the
carve-out the counterexample forces: a body that rethrows, e.g. on
rate-limit retry exhaustion, logs nothing), the final item log extends
the prior log unchanged, contains each candidate exactly once for this
run, and a principalId appears at most once across the run's item log. -/
theorem mig_c1_resume_amended (d e : String → String) (ra : Nat)
    (menv : MigEnv) (target initiator : String) (db : DbState) (run : RunRow)
    (htk : menv.targetKnown = true)
    (hrun : getIncompleteMigrationRun db target = some run)
    (hne : (getAllVerifiedUsers db).isEmpty = false)
    (hnodupUsers : (db.users.map (fun u => u.discord_id)).Nodup)
    (hnodupPrior : ((db.itemLog.filter
      (fun entry => entry.migration_run_id = run.id)).map
      (fun entry => entry.discord_id)).Nodup)
    (hok : ∀ u ∈ getAllVerifiedUsers db,
      jsMapHas (getProcessedUsersForRun db run.id) u.discord_id = false →
      isOkResult (processSingleUser d e ra (menv.userEnv u.discord_id)
        menv.now run.id u).result = true) :
    (executeMigration d e ra menv target initiator db).1 = .ok () ∧
    db.itemLog <+: (executeMigration d e ra menv target initiator db).2.itemLog ∧
    (∀ u ∈ getAllVerifiedUsers db,
      (((executeMigration d e ra menv target initiator db).2.itemLog.filter
        (fun entry => entry.migration_run_id = run.id)).map
        (fun entry => entry.discord_id)).count u.discord_id = 1) ∧
    (((executeMigration d e ra menv target initiator db).2.itemLog.filter
      (fun entry => entry.migration_run_id = run.id)).map
      (fun entry => entry.discord_id)).Nodup := by
  have hcore := resume_log_core d e ra menv run.id db
    (getProcessedUsersForRun db run.id)
    ((getAllVerifiedUsers db).filter
      (fun u => !jsMapHas (getProcessedUsersForRun db run.id) u.discord_id))
    rfl rfl hnodupUsers hnodupPrior hok
  have hred : executeMigration d e ra menv target initiator db =
      (.ok (), migrateUsers d e ra menv run.id
        (getProcessedUsersForRun db run.id)
        ((getAllVerifiedUsers db).filter
          (fun u => !jsMapHas (getProcessedUsersForRun db run.id) u.discord_id))
        db) := by
    simp only [executeMigration, htk, Bool.not_true, Bool.false_eq_true, if_false]
    rw [if_neg (by rw [hne]; exact Bool.false_ne_true)]
    simp only [hrun]
    rw [usersToProcess_eq]
  rw [hred]
  exact ⟨rfl, hcore.1, hcore.2.1, hcore.2.2⟩

/-- Environment for the clean resume witness: every join succeeds. -/
def c1wEnv : MigEnv := ⟨true, 0, fun _ => ⟨.error "never", fun _ => .added⟩⟩

/-- C1 witness for the amended theorem: the interrupted run (A logged)
resumed over candidates `[A, B]` with B joining cleanly keeps A's row,
logs B once, and holds each candidate exactly once. -/
theorem mig_c1_resume_amended_witness :
    (executeMigration id id 3 c1wEnv "g" "owner" c1Db).1 = .ok () ∧
    c1Db.itemLog <+: (executeMigration id id 3 c1wEnv "g" "owner" c1Db).2.itemLog ∧
    (∀ u ∈ getAllVerifiedUsers c1Db,
      (((executeMigration id id 3 c1wEnv "g" "owner" c1Db).2.itemLog.filter
        (fun entry => entry.migration_run_id = c1Run.id)).map
        (fun entry => entry.discord_id)).count u.discord_id = 1) ∧
    (((executeMigration id id 3 c1wEnv "g" "owner" c1Db).2.itemLog.filter
      (fun entry => entry.migration_run_id = c1Run.id)).map
      (fun entry => entry.discord_id)).Nodup :=
  mig_c1_resume_amended id id 3 c1wEnv "g" "owner" c1Db c1Run rfl
    (by decide) rfl (by decide) (by decide) (by decide)

end Migration
